import Mathlib

/-!
Shallow embedding of the trading-log position ledger, mutation operations and
reconciliation engine (Fastify trade routes, `computeTradeAggregates`, and
`AsterDexSyncService`).  JavaScript numbers are modelled as exact rationals;
dates are modelled as natural-number timestamps; `undefined`/`null` become
`Option`; fallible route handlers return `Except`.
-/

namespace TradingLog

/-- Trade side, `'long' | 'short'`. -/
inductive Side where
  | long
  | short
deriving DecidableEq, Repr

/-- Trade status, `'active' | 'closed'`. -/
inductive Status where
  | active
  | closed
deriving DecidableEq, Repr

/-- One entry event (`ITradeEntry`): `entryPrice`, `amountInvestedUsd`,
optional `leverage`, `entryDate`. -/
structure TradeEntry where
  entryPrice : ℚ
  amountInvestedUsd : ℚ
  leverage : Option ℚ
  entryDate : ℕ
deriving DecidableEq, Repr

/-- One close event (`ITradeClose`). -/
structure TradeClose where
  closePrice : ℚ
  closeCoinAmount : ℚ
  closeUsdAmount : ℚ
  closeDate : ℕ
  pnlUsd : ℚ
  pnlPercent : ℚ
deriving DecidableEq, Repr

/-- The `ITrade` document (per-user fields such as `userId` are fixed by the
route's auth scope and omitted; `createdAt`/`updatedAt` are bookkeeping). -/
structure Trade where
  side : Side
  status : Status
  coin : String
  comment : Option String
  stopLossPrice : Option ℚ
  takeProfitPrice : Option ℚ
  entries : List TradeEntry
  closes : List TradeClose
  source : Option String
  exchange : Option String
  exchangeAccountId : Option String
  exchangePositionId : Option String
  exchangeProductType : Option String
  lastSyncedAt : Option ℕ
deriving DecidableEq, Repr

/-- The closing tolerance `1e-8` used by the sell route. -/
def eps : ℚ := 1 / 100000000

/-- JavaScript `String.prototype.toUpperCase` over the character list (the
char-list rendering keeps the function computable by the kernel). -/
def strToUpper (s : String) : String := String.mk (s.data.map Char.toUpper)

/-- JavaScript `String.prototype.trim` over the character list. -/
def strTrim (s : String) : String :=
  String.mk (((s.data.dropWhile fun c => c.isWhitespace).reverse.dropWhile
    fun c => c.isWhitespace).reverse)

/-- `e.leverage ?? 1`. -/
def entryLeverage (e : TradeEntry) : ℚ := e.leverage.getD 1

/-- `notional = margin * leverage`. -/
def entryNotional (e : TradeEntry) : ℚ := e.amountInvestedUsd * entryLeverage e

/-- `coin = notional / entryPrice`. -/
def entryCoin (e : TradeEntry) : ℚ := entryNotional e / e.entryPrice

/-- Accumulated `totalInitialMarginUsd` over the entries loop. -/
def totalInitialMarginUsd (entries : List TradeEntry) : ℚ :=
  (entries.map (fun e => e.amountInvestedUsd)).sum

/-- Accumulated `totalEntryNotionalUsd` over the entries loop. -/
def totalEntryNotionalUsd (entries : List TradeEntry) : ℚ :=
  (entries.map entryNotional).sum

/-- Accumulated `totalEntryCoin` over the entries loop. -/
def totalEntryCoin (entries : List TradeEntry) : ℚ :=
  (entries.map entryCoin).sum

/-- Accumulated `totalClosedCoin` over the closes loop. -/
def totalClosedCoin (closes : List TradeClose) : ℚ :=
  (closes.map (fun c => c.closeCoinAmount)).sum

/-- Accumulated `realizedPnlUsd` over the closes loop. -/
def realizedPnlTotal (closes : List TradeClose) : ℚ :=
  (closes.map (fun c => c.pnlUsd)).sum

/-- Result record of `computeTradeAggregates`. -/
structure Aggregates where
  totalInitialMarginUsd : ℚ
  totalEntryCoin : ℚ
  openCoin : ℚ
  avgEntryPrice : Option ℚ
  effectiveLeverage : Option ℚ
  openNotionalUsd : Option ℚ
  openMarginUsd : Option ℚ
  debtUsd : Option ℚ
  realizedPnlUsd : ℚ
  realizedPnlPercent : Option ℚ
  liquidationPrice : Option ℚ
deriving DecidableEq, Repr

/-- `computeTradeAggregates(trade)`: the pure aggregation function.
JavaScript truthiness of `effectiveLeverage` in the guards is rendered
explicitly (`null` and `0` are falsy). -/
def computeTradeAggregates (t : Trade) : Aggregates :=
  let tim := totalInitialMarginUsd t.entries
  let ten := totalEntryNotionalUsd t.entries
  let tec := totalEntryCoin t.entries
  let tcc := totalClosedCoin t.closes
  let rpnl := realizedPnlTotal t.closes
  let openCoin := max (tec - tcc) 0
  let avgEntryPrice : Option ℚ := if tec > 0 then some (ten / tec) else none
  let effectiveLeverage : Option ℚ := if tim > 0 then some (ten / tim) else none
  let openNotionalUsd : Option ℚ :=
    match avgEntryPrice with
    | some avg => if openCoin > 0 then some (openCoin * avg) else none
    | none => none
  let openMarginUsd : Option ℚ :=
    match openNotionalUsd, effectiveLeverage with
    | some onu, some el => if el > 0 then some (onu / el) else none
    | _, _ => none
  let debtUsd : Option ℚ :=
    match openNotionalUsd, openMarginUsd with
    | some onu, some omu => some (onu - omu)
    | _, _ => none
  let realizedPnlPercent : Option ℚ := if tim > 0 then some (rpnl / tim * 100) else none
  let liquidationPrice : Option ℚ :=
    match effectiveLeverage, avgEntryPrice with
    | some el, some avg =>
      if el > 1 then
        match t.side with
        | Side.long => some (avg * (1 - 1 / el))
        | Side.short => some (avg * (1 + 1 / el))
      else none
    | _, _ => none
  { totalInitialMarginUsd := tim
    totalEntryCoin := tec
    openCoin := openCoin
    avgEntryPrice := avgEntryPrice
    effectiveLeverage := effectiveLeverage
    openNotionalUsd := openNotionalUsd
    openMarginUsd := openMarginUsd
    debtUsd := debtUsd
    realizedPnlUsd := rpnl
    realizedPnlPercent := realizedPnlPercent
    liquidationPrice := liquidationPrice }

/-! ### Mutation operations (trade routes) -/

/-- Body of `POST /trades/active` (`createActiveTradeSchema`). -/
structure CreateActiveRequest where
  coin : String
  side : Side
  entryPrice : ℚ
  amountInvestedUsd : ℚ
  leverage : Option ℚ
  stopLossPrice : Option ℚ
  takeProfitPrice : Option ℚ
  entryDate : Option ℕ
  comment : Option String
deriving DecidableEq, Repr

/-- The zod validation of `createActiveTradeSchema`. -/
def createActiveValid (r : CreateActiveRequest) : Bool :=
  1 ≤ r.coin.length && 0 < r.entryPrice && 0 < r.amountInvestedUsd &&
  r.leverage.all (fun l => 0 < l) && r.stopLossPrice.all (fun p => 0 < p) &&
  r.takeProfitPrice.all (fun p => 0 < p) &&
  r.comment.all (fun c => c.length ≤ 1000)

inductive RouteError where
  | badRequest
  | alreadyClosed
  | noOpenPosition
  | nonPositiveAmount
  | onlyClosedEditable
  | multiLeg
  | exitPriceRequired
  | zeroEntrySize
deriving DecidableEq, Repr

/-- Handler of `POST /trades/active`: one entry, no closes, status active. -/
def createActiveTrade (r : CreateActiveRequest) (now : ℕ) : Except RouteError Trade :=
  if createActiveValid r then
    Except.ok
      { side := r.side
        status := Status.active
        coin := r.coin
        comment := r.comment
        stopLossPrice := r.stopLossPrice
        takeProfitPrice := r.takeProfitPrice
        entries := [{ entryPrice := r.entryPrice
                      amountInvestedUsd := r.amountInvestedUsd
                      leverage := r.leverage
                      entryDate := r.entryDate.getD now }]
        closes := []
        source := none
        exchange := none
        exchangeAccountId := none
        exchangePositionId := none
        exchangeProductType := none
        lastSyncedAt := none }
  else Except.error RouteError.badRequest

/-- Per-side realized pnl: `(closePrice - avgEntry) * coin` for longs,
sign flipped for shorts. -/
def pnlUsdFor (side : Side) (closePrice avgEntry coinAmount : ℚ) : ℚ :=
  match side with
  | Side.long => (closePrice - avgEntry) * coinAmount
  | Side.short => (avgEntry - closePrice) * coinAmount

/-- Body of `POST /trades/closed` (`createClosedTradeSchema`). -/
structure CreateClosedRequest where
  coin : String
  side : Side
  entryPrice : ℚ
  amountInvestedUsd : ℚ
  leverage : Option ℚ
  stopLossPrice : Option ℚ
  takeProfitPrice : Option ℚ
  entryDate : Option ℕ
  comment : Option String
  exitPrice : ℚ
  exitDate : Option ℕ
deriving DecidableEq, Repr

/-- The zod validation of `createClosedTradeSchema`. -/
def createClosedValid (r : CreateClosedRequest) : Bool :=
  1 ≤ r.coin.length && 0 < r.entryPrice && 0 < r.amountInvestedUsd &&
  r.leverage.all (fun l => 0 < l) && r.stopLossPrice.all (fun p => 0 < p) &&
  r.takeProfitPrice.all (fun p => 0 < p) &&
  r.comment.all (fun c => c.length ≤ 1000) && 0 < r.exitPrice

/-- Handler of `POST /trades/closed`: builds a transient trade, computes a
synthetic close from the aggregates and persists with status closed. -/
def createClosedTrade (r : CreateClosedRequest) (now : ℕ) : Except RouteError Trade :=
  if createClosedValid r then
    let entry : TradeEntry :=
      { entryPrice := r.entryPrice
        amountInvestedUsd := r.amountInvestedUsd
        leverage := r.leverage
        entryDate := r.entryDate.getD (r.exitDate.getD now) }
    let tmpTrade : Trade :=
      { side := r.side
        status := Status.closed
        coin := r.coin
        comment := r.comment
        stopLossPrice := r.stopLossPrice
        takeProfitPrice := r.takeProfitPrice
        entries := [entry]
        closes := []
        source := none
        exchange := none
        exchangeAccountId := none
        exchangePositionId := none
        exchangeProductType := none
        lastSyncedAt := none }
    let aggregates := computeTradeAggregates tmpTrade
    let fullCoin := aggregates.totalEntryCoin
    let closeUsdAmount := fullCoin * r.exitPrice
    let marginForTrade := aggregates.totalInitialMarginUsd
    let avg := aggregates.avgEntryPrice.getD r.entryPrice
    let pnlUsd := pnlUsdFor r.side r.exitPrice avg fullCoin
    let pnlPercent := if marginForTrade > 0 then pnlUsd / marginForTrade * 100 else 0
    let close : TradeClose :=
      { closePrice := r.exitPrice
        closeCoinAmount := fullCoin
        closeUsdAmount := closeUsdAmount
        closeDate := r.exitDate.getD now
        pnlUsd := pnlUsd
        pnlPercent := pnlPercent }
    Except.ok { tmpTrade with closes := [close] }
  else Except.error RouteError.badRequest

/-- Body of `POST /trades/:id/add-size` (`addSizeSchema`). -/
structure AddSizeRequest where
  entryPrice : ℚ
  amountInvestedUsd : ℚ
  leverage : Option ℚ
  entryDate : Option ℕ
deriving DecidableEq, Repr

/-- The zod validation of `addSizeSchema`. -/
def addSizeValid (r : AddSizeRequest) : Bool :=
  0 < r.entryPrice && 0 < r.amountInvestedUsd && r.leverage.all (fun l => 0 < l)

/-- Handler of `POST /trades/:id/add-size`: appends one entry to an active
trade, rejects closed trades. -/
def addSizeTrade (t : Trade) (r : AddSizeRequest) (now : ℕ) : Except RouteError Trade :=
  if addSizeValid r then
    if t.status = Status.active then
      Except.ok
        { t with entries := t.entries ++
            [{ entryPrice := r.entryPrice
               amountInvestedUsd := r.amountInvestedUsd
               leverage := r.leverage
               entryDate := r.entryDate.getD now }] }
    else Except.error RouteError.alreadyClosed
  else Except.error RouteError.badRequest

/-- Body of `POST /trades/:id/sell` (`sellSchemaBase`). -/
structure SellRequest where
  closePrice : ℚ
  closeDate : Option ℕ
  amountCoin : Option ℚ
  amountUsd : Option ℚ
  percentage : Option ℚ
deriving DecidableEq, Repr

/-- The zod validation of `sellSchema`, including the refinement that exactly
one of `amountCoin`, `amountUsd`, `percentage` is present. -/
def sellRequestValid (r : SellRequest) : Bool :=
  0 < r.closePrice && r.amountCoin.all (fun a => 0 < a) &&
  r.amountUsd.all (fun a => 0 < a) &&
  r.percentage.all (fun p => 0 < p && p ≤ 100) &&
  (r.amountCoin.isSome.toNat + r.amountUsd.isSome.toNat + r.percentage.isSome.toNat = 1)

/-- The `closeCoin` implied by the request body before the oversell clamp:
`amountCoin`, else `amountUsd / closePrice`, else `(percentage/100) * openCoin`. -/
def impliedCloseCoin (r : SellRequest) (openCoin : ℚ) : ℚ :=
  match r.amountCoin with
  | some a => a
  | none =>
    match r.amountUsd with
    | some u => u / r.closePrice
    | none =>
      match r.percentage with
      | some p => p / 100 * openCoin
      | none => 0

/-- Handler of `POST /trades/:id/sell`.  The JavaScript truthiness guard
`!aggregatesBefore.avgEntryPrice` is rendered as `getD 0 = 0` (both `null`
and `0` are falsy). -/
def sellTrade (t : Trade) (r : SellRequest) (now : ℕ) : Except RouteError Trade :=
  if ¬ sellRequestValid r then Except.error RouteError.badRequest
  else if ¬ t.status = Status.active then Except.error RouteError.alreadyClosed
  else
    let agg := computeTradeAggregates t
    if agg.avgEntryPrice.getD 0 = 0 ∨ agg.totalEntryCoin ≤ 0 ∨ agg.openCoin ≤ 0 then
      Except.error RouteError.noOpenPosition
    else
      let openCoin := agg.openCoin
      let closeCoin0 := impliedCloseCoin r openCoin
      if ¬ 0 < closeCoin0 then Except.error RouteError.nonPositiveAmount
      else
        let closeCoin := if closeCoin0 > openCoin then openCoin else closeCoin0
        let closeUsdAmount := closeCoin * r.closePrice
        let marginForPortion :=
          if agg.totalInitialMarginUsd > 0 ∧ agg.totalEntryCoin > 0 then
            agg.totalInitialMarginUsd * (closeCoin / agg.totalEntryCoin)
          else 0
        let avgEntry := agg.avgEntryPrice.getD 0
        let pnlUsd := pnlUsdFor t.side r.closePrice avgEntry closeCoin
        let pnlPercent := if marginForPortion > 0 then pnlUsd / marginForPortion * 100 else 0
        let newClose : TradeClose :=
          { closePrice := r.closePrice
            closeCoinAmount := closeCoin
            closeUsdAmount := closeUsdAmount
            closeDate := r.closeDate.getD now
            pnlUsd := pnlUsd
            pnlPercent := pnlPercent }
        let remainingOpenCoin := openCoin - closeCoin
        let newStatus := if remainingOpenCoin ≤ eps then Status.closed else t.status
        Except.ok { t with closes := t.closes ++ [newClose], status := newStatus }

/-- Body of `PATCH /trades/:id` (`editTradeSchema`).  An outer `Option` means
"field provided"; the inner `Option` on nullable fields distinguishes an
explicit `null` (clear) from a value. -/
structure EditRequest where
  comment : Option String
  stopLossPrice : Option (Option ℚ)
  takeProfitPrice : Option (Option ℚ)
  coin : Option String
  side : Option Side
  entryPrice : Option ℚ
  amountInvestedUsd : Option ℚ
  leverage : Option (Option ℚ)
  entryDate : Option ℕ
  exitPrice : Option ℚ
  exitDate : Option ℕ
deriving DecidableEq, Repr

/-- The zod validation of `editTradeSchema`. -/
def editRequestValid (r : EditRequest) : Bool :=
  r.comment.all (fun c => c.length ≤ 1000) &&
  r.stopLossPrice.all (fun o => o.all (fun p => 0 < p)) &&
  r.takeProfitPrice.all (fun o => o.all (fun p => 0 < p)) &&
  r.coin.all (fun c => 1 ≤ c.length) &&
  r.entryPrice.all (fun p => 0 < p) &&
  r.amountInvestedUsd.all (fun a => 0 < a) &&
  r.leverage.all (fun o => o.all (fun l => 0 < l)) &&
  r.exitPrice.all (fun p => 0 < p)

/-- `closedTradeEditableKeys.some((key) => parsed.data[key] !== undefined)`. -/
def closedFieldsProvided (r : EditRequest) : Bool :=
  r.coin.isSome || r.side.isSome || r.entryPrice.isSome || r.amountInvestedUsd.isSome ||
  r.leverage.isSome || r.entryDate.isSome || r.exitPrice.isSome || r.exitDate.isSome

/-- Handler of `PATCH /trades/:id`.  Mirrors the source's control flow:
comment / stop-loss / take-profit assignments happen on the in-memory
document before the entry/exit block, and `trade.save()` runs only on the
success path, so an error discards every in-memory assignment. -/
def editTrade (t : Trade) (r : EditRequest) (now : ℕ) : Except RouteError Trade :=
  if ¬ editRequestValid r then Except.error RouteError.badRequest
  else if closedFieldsProvided r ∧ ¬ t.status = Status.closed then
    Except.error RouteError.onlyClosedEditable
  else
    let t1 : Trade :=
      { t with
        comment := match r.comment with | some c => some c | none => t.comment
        stopLossPrice := match r.stopLossPrice with | some o => o | none => t.stopLossPrice
        takeProfitPrice :=
          match r.takeProfitPrice with | some o => o | none => t.takeProfitPrice }
    if t.status = Status.closed ∧ closedFieldsProvided r then
      match t1.entries, t1.closes with
      | [entry], [closeRecord] =>
        let newCoin := match r.coin with | some c => strToUpper c | none => t1.coin
        let newSide := r.side.getD t1.side
        let entry2 : TradeEntry :=
          { entryPrice := r.entryPrice.getD entry.entryPrice
            amountInvestedUsd := r.amountInvestedUsd.getD entry.amountInvestedUsd
            leverage := match r.leverage with | some o => o | none => entry.leverage
            entryDate := r.entryDate.getD entry.entryDate }
        let exitPrice := r.exitPrice.getD closeRecord.closePrice
        if ¬ 0 < exitPrice then Except.error RouteError.exitPriceRequired
        else
          let exitDate := r.exitDate.getD closeRecord.closeDate
          let t2 : Trade := { t1 with coin := newCoin, side := newSide, entries := [entry2] }
          let aggregates := computeTradeAggregates t2
          if ¬ 0 < aggregates.totalEntryCoin then Except.error RouteError.zeroEntrySize
          else
            let marginForTrade := aggregates.totalInitialMarginUsd
            let avgEntry := aggregates.avgEntryPrice.getD entry2.entryPrice
            let closeUsdAmount := aggregates.totalEntryCoin * exitPrice
            let pnlUsd := pnlUsdFor t2.side exitPrice avgEntry aggregates.totalEntryCoin
            let pnlPercent := if marginForTrade > 0 then pnlUsd / marginForTrade * 100 else 0
            let close2 : TradeClose :=
              { closePrice := exitPrice
                closeCoinAmount := aggregates.totalEntryCoin
                closeUsdAmount := closeUsdAmount
                closeDate := exitDate
                pnlUsd := pnlUsd
                pnlPercent := pnlPercent }
            Except.ok { t2 with closes := [close2] }
      | _, _ => Except.error RouteError.multiLeg
    else Except.ok t1

/-- The state of the stored document after the PATCH handler returns: the
route calls `trade.save()` only on the success path, so an error leaves the
stored trade untouched. -/
def editPersisted (t : Trade) (r : EditRequest) (now : ℕ) : Trade :=
  match editTrade t r now with
  | Except.ok t2 => t2
  | Except.error _ => t

/-! ### Reconciliation engine (`AsterDexSyncService`) -/

/-- An external snapshot (`AsterDexPosition`) as consumed by `mapPosition`;
fields that may be `undefined` or non-numeric are `Option`. -/
structure AsterDexPosition where
  id : Option String
  market : Option String
  asset : Option String
  size : Option ℚ
  entryPrice : Option ℚ
  leverage : Option ℚ
  notionalUsd : Option ℚ
  collateralUsd : Option ℚ
  accountId : Option String
  openedAt : Option ℕ
deriving DecidableEq, Repr

/-- `PositionTradePayload`. -/
structure PositionTradePayload where
  positionId : String
  coin : String
  side : Side
  entry : TradeEntry
  exchangeProductType : String
  accountId : Option String
deriving DecidableEq, Repr

/-- `market?.split(/[-_/:]/)[0]` — the prefix before the first separator. -/
def splitBaseSymbol (m : String) : String :=
  String.mk (m.data.takeWhile (fun c => ¬ (c = '-' ∨ c = '_' ∨ c = '/' ∨ c = ':')))

/-- `position.asset ?? position.market?.split(/[-_/:]/)[0] ?? ''`. -/
def baseSymbolOf (p : AsterDexPosition) : String :=
  match p.asset with
  | some a => a
  | none =>
    match p.market with
    | some m => splitBaseSymbol m
    | none => ""

/-- `position.notionalUsd ?? absoluteSize * entryPrice`. -/
def notionalUsdOf (p : AsterDexPosition) (size entryPrice : ℚ) : ℚ :=
  p.notionalUsd.getD (|size| * entryPrice)

/-- `position.leverage ?? (collateral > 0 ? notional / collateral : undefined)`. -/
def derivedLeverageOf (p : AsterDexPosition) (notionalUsd : ℚ) : Option ℚ :=
  match p.leverage with
  | some l => some l
  | none =>
    match p.collateralUsd with
    | some c => if 0 < c then some (notionalUsd / c) else none
    | none => none

/-- `derivedLeverage && derivedLeverage > 1 ? derivedLeverage : 1`. -/
def leverageValueOf (derivedLeverage : Option ℚ) : ℚ :=
  match derivedLeverage with
  | some l => if 1 < l then l else 1
  | none => 1

/-- `investedUsd`: explicit collateral (or margin share) for perpetuals, full
notional for spot. -/
def investedUsdOf (p : AsterDexPosition) (productType : String)
    (notionalUsd leverageValue : ℚ) : ℚ :=
  if productType = "perpetual" then p.collateralUsd.getD (notionalUsd / leverageValue)
  else notionalUsd

/-- The payload built at the end of `mapPosition` once every rule passed. -/
def buildPayload (p : AsterDexPosition) (now : ℕ) (positionId coin : String)
    (size entryPrice investedUsd leverageValue : ℚ) (productType : String) :
    PositionTradePayload :=
  { positionId := positionId
    coin := coin
    side := if 0 < size then Side.long else Side.short
    entry :=
      { entryPrice := entryPrice
        amountInvestedUsd := investedUsd
        leverage := some (if productType = "perpetual" then leverageValue else 1)
        entryDate := p.openedAt.getD now }
    exchangeProductType := productType
    accountId := p.accountId }

/-- `AsterDexSyncService.mapPosition`: maps an external snapshot to an upsert
payload, or `none` when a mapping rule fails (`SkippedItem`). -/
def mapPosition (p : AsterDexPosition) (now : ℕ) : Option PositionTradePayload :=
  match p.id with
  | none => none
  | some positionId =>
    if positionId = "" then none
    else
      match p.size with
      | none => none
      | some size =>
        if size = 0 then none
        else
          match p.entryPrice with
          | none => none
          | some entryPrice =>
            if ¬ 0 < entryPrice then none
            else
              if baseSymbolOf p = "" then none
              else
                if strToUpper (strTrim (baseSymbolOf p)) = "" then none
                else
                  if ¬ 0 < investedUsdOf p
                      (if 1 < leverageValueOf (derivedLeverageOf p (notionalUsdOf p size entryPrice))
                       then "perpetual" else "spot")
                      (notionalUsdOf p size entryPrice)
                      (leverageValueOf (derivedLeverageOf p (notionalUsdOf p size entryPrice)))
                  then none
                  else
                    some (buildPayload p now positionId (strToUpper (strTrim (baseSymbolOf p)))
                      size entryPrice
                      (investedUsdOf p
                        (if 1 < leverageValueOf (derivedLeverageOf p (notionalUsdOf p size entryPrice))
                         then "perpetual" else "spot")
                        (notionalUsdOf p size entryPrice)
                        (leverageValueOf (derivedLeverageOf p (notionalUsdOf p size entryPrice))))
                      (leverageValueOf (derivedLeverageOf p (notionalUsdOf p size entryPrice)))
                      (if 1 < leverageValueOf (derivedLeverageOf p (notionalUsdOf p size entryPrice))
                       then "perpetual" else "spot"))

inductive UpsertResult where
  | created
  | updated
deriving DecidableEq, Repr

/-- The `findOne` filter of `upsertTrade`: same user (implicit), exchange
`'asterdex'` and the payload's external position id. -/
def tradeMatchesKey (t : Trade) (positionId : String) : Bool :=
  t.exchange = some "asterdex" && t.exchangePositionId = some positionId

/-- The field overwrite applied to an existing matched document inside
`upsertTrade` (state replace: single synthetic entry, closes cleared,
status forced to active). -/
def overwriteFromPayload (t : Trade) (p : PositionTradePayload) (syncedAt : ℕ) : Trade :=
  { t with
    side := p.side
    status := Status.active
    coin := p.coin
    entries := [p.entry]
    closes := []
    source := some "asterdex"
    exchange := some "asterdex"
    exchangeAccountId := p.accountId
    exchangePositionId := some p.positionId
    exchangeProductType := some p.exchangeProductType
    lastSyncedAt := some syncedAt }

/-- The document created by `Trade.create` inside `upsertTrade` when no
match exists. -/
def newTradeFromPayload (p : PositionTradePayload) (syncedAt : ℕ) : Trade :=
  { side := p.side
    status := Status.active
    coin := p.coin
    comment := none
    stopLossPrice := none
    takeProfitPrice := none
    entries := [p.entry]
    closes := []
    source := some "asterdex"
    exchange := some "asterdex"
    exchangeAccountId := p.accountId
    exchangePositionId := some p.positionId
    exchangeProductType := some p.exchangeProductType
    lastSyncedAt := some syncedAt }

/-- `AsterDexSyncService.upsertTrade` over the user's trade collection:
overwrite the first document matching the key, else create a new one. -/
def upsertTrade : List Trade → PositionTradePayload → ℕ → List Trade × UpsertResult
  | [], p, syncedAt => ([newTradeFromPayload p syncedAt], UpsertResult.created)
  | t :: rest, p, syncedAt =>
    if tradeMatchesKey t p.positionId then
      (overwriteFromPayload t p syncedAt :: rest, UpsertResult.updated)
    else
      let (rest2, r) := upsertTrade rest p syncedAt
      (t :: rest2, r)

/-- Per-run statistics (`AsterDexSyncStats`). -/
structure SyncStats where
  totalPositions : ℕ
  created : ℕ
  updated : ℕ
  skipped : ℕ
  concurrent : Bool
deriving DecidableEq, Repr

/-- Accumulator of the `syncPositions` loop. -/
structure LoopAcc where
  db : List Trade
  created : ℕ
  updated : ℕ
  skipped : ℕ
deriving DecidableEq, Repr

/-- The `for (const position of positions)` loop of `syncPositions`:
a snapshot that fails mapping only increments `skipped`; otherwise the
payload is upserted and `created`/`updated` counted. -/
def syncLoop (db : List Trade) (now : ℕ) : List AsterDexPosition → LoopAcc
  | [] => { db := db, created := 0, updated := 0, skipped := 0 }
  | p :: rest =>
    match mapPosition p now with
    | none =>
      let acc := syncLoop db now rest
      { acc with skipped := acc.skipped + 1 }
    | some payload =>
      let (db2, r) := upsertTrade db payload now
      let acc := syncLoop db2 now rest
      match r with
      | UpsertResult.created => { acc with created := acc.created + 1 }
      | UpsertResult.updated => { acc with updated := acc.updated + 1 }

/-- `AsterDexSyncService.syncPositions`. -/
def syncPositions (db : List Trade) (now : ℕ) (positions : List AsterDexPosition) :
    List Trade × SyncStats :=
  let acc := syncLoop db now positions
  (acc.db,
    { totalPositions := positions.length
      created := acc.created
      updated := acc.updated
      skipped := acc.skipped
      concurrent := false })

/-- Engine state: the in-memory single-flight flag plus the stored trades. -/
structure SyncEngine where
  syncing : Bool
  db : List Trade
deriving DecidableEq, Repr

/-- Outcome of `client.fetchOpenPositions()`: a snapshot list, or a thrown
feed error. -/
inductive FeedResult where
  | ok (positions : List AsterDexPosition)
  | fetchError
deriving DecidableEq, Repr

/-- `AsterDexSyncService.runSync`: returns the concurrent-skip stats when the
guard is held; otherwise fetches, syncs (catching any feed failure into the
zeroed stats) and clears the flag in the `finally`. -/
def runSync (e : SyncEngine) (feed : FeedResult) (now : ℕ) : SyncEngine × SyncStats :=
  if e.syncing then
    (e, { totalPositions := 0, created := 0, updated := 0, skipped := 0, concurrent := true })
  else
    match feed with
    | FeedResult.fetchError =>
      ({ e with syncing := false },
        { totalPositions := 0, created := 0, updated := 0, skipped := 0, concurrent := false })
    | FeedResult.ok positions =>
      let (db2, stats) := syncPositions e.db now positions
      ({ syncing := false, db := db2 }, stats)

/-! ### Reachable position states -/

/-- Well-formed entry, as the data model requires: positive price and margin,
leverage positive when present. -/
def entryWF (e : TradeEntry) : Bool :=
  0 < e.entryPrice && 0 < e.amountInvestedUsd && e.leverage.all (fun l => 0 < l)

/-- Well-formed close: non-negative realized coin amount. -/
def closeWF (c : TradeClose) : Bool :=
  0 ≤ c.closeCoinAmount

/-- Structural well-formedness of a position: at least one entry, all entries
and closes well-formed. -/
def tradeWF (t : Trade) : Bool :=
  ¬ t.entries.isEmpty && t.entries.all entryWF && t.closes.all closeWF

/-- Reachable position states: every way the system creates a position
(manual active/closed creation, reconciliation create) followed by any
sequence of the system's mutations (add-size, sell, edit, reconciliation
overwrite of a key-matching document). -/
inductive Reach : Trade → Prop where
  | createActive (r : CreateActiveRequest) (now : ℕ) (t : Trade)
      (h : createActiveTrade r now = Except.ok t) : Reach t
  | createClosed (r : CreateClosedRequest) (now : ℕ) (t : Trade)
      (h : createClosedTrade r now = Except.ok t) : Reach t
  | syncCreate (pos : AsterDexPosition) (now : ℕ) (p : PositionTradePayload)
      (h : mapPosition pos now = some p) : Reach (newTradeFromPayload p now)
  | addSizeStep (t : Trade) (r : AddSizeRequest) (now : ℕ) (t2 : Trade)
      (ht : Reach t) (h : addSizeTrade t r now = Except.ok t2) : Reach t2
  | sellStep (t : Trade) (r : SellRequest) (now : ℕ) (t2 : Trade)
      (ht : Reach t) (h : sellTrade t r now = Except.ok t2) : Reach t2
  | editStep (t : Trade) (r : EditRequest) (now : ℕ) (t2 : Trade)
      (ht : Reach t) (h : editTrade t r now = Except.ok t2) : Reach t2
  | syncUpdate (t : Trade) (pos : AsterDexPosition) (now : ℕ) (p : PositionTradePayload)
      (ht : Reach t) (h : mapPosition pos now = some p)
      (hk : tradeMatchesKey t p.positionId = true) : Reach (overwriteFromPayload t p now)

/-! ### Basic lemmas about the aggregation sums -/

theorem totalClosedCoin_append (l : List TradeClose) (c : TradeClose) :
    totalClosedCoin (l ++ [c]) = totalClosedCoin l + c.closeCoinAmount := by
  simp [totalClosedCoin]

theorem totalEntryCoin_append (l : List TradeEntry) (e : TradeEntry) :
    totalEntryCoin (l ++ [e]) = totalEntryCoin l + entryCoin e := by
  simp [totalEntryCoin]

theorem entryCoin_pos {e : TradeEntry} (h : entryWF e = true) : 0 < entryCoin e := by
  simp only [entryWF, Bool.and_eq_true, decide_eq_true_eq] at h
  obtain ⟨⟨hp, ha⟩, hl⟩ := h
  have hlev : 0 < entryLeverage e := by
    unfold entryLeverage
    cases hle : e.leverage with
    | none => norm_num
    | some l =>
      simp only [hle, Option.all_some, decide_eq_true_eq] at hl
      simpa [hle] using hl
  have hnot : 0 < entryNotional e := mul_pos ha hlev
  exact div_pos hnot hp

theorem entryNotional_pos {e : TradeEntry} (h : entryWF e = true) : 0 < entryNotional e := by
  simp only [entryWF, Bool.and_eq_true, decide_eq_true_eq] at h
  obtain ⟨⟨_, ha⟩, hl⟩ := h
  have hlev : 0 < entryLeverage e := by
    unfold entryLeverage
    cases hle : e.leverage with
    | none => norm_num
    | some l =>
      simp only [hle, Option.all_some, decide_eq_true_eq] at hl
      simpa [hle] using hl
  exact mul_pos ha hlev

theorem totalEntryCoin_nonneg {l : List TradeEntry} (h : l.all entryWF = true) :
    0 ≤ totalEntryCoin l := by
  unfold totalEntryCoin
  apply List.sum_nonneg
  intro x hx
  simp only [List.mem_map] at hx
  obtain ⟨e, he, rfl⟩ := hx
  exact le_of_lt (entryCoin_pos (by exact List.all_eq_true.mp h e he))

theorem totalEntryCoin_pos {l : List TradeEntry} (h : l.all entryWF = true)
    (hne : l ≠ []) : 0 < totalEntryCoin l := by
  cases l with
  | nil => exact absurd rfl hne
  | cons e rest =>
    simp only [List.all_cons, Bool.and_eq_true] at h
    have h1 : 0 < entryCoin e := entryCoin_pos h.1
    have h2 : 0 ≤ totalEntryCoin rest := totalEntryCoin_nonneg h.2
    unfold totalEntryCoin at h2 ⊢
    simp only [List.map_cons, List.sum_cons]
    linarith

theorem totalEntryNotionalUsd_pos {l : List TradeEntry} (h : l.all entryWF = true)
    (hne : l ≠ []) : 0 < totalEntryNotionalUsd l := by
  cases l with
  | nil => exact absurd rfl hne
  | cons e rest =>
    simp only [List.all_cons, Bool.and_eq_true] at h
    have h1 : 0 < entryNotional e := entryNotional_pos h.1
    have h2 : 0 ≤ totalEntryNotionalUsd rest := by
      unfold totalEntryNotionalUsd
      apply List.sum_nonneg
      intro x hx
      simp only [List.mem_map] at hx
      obtain ⟨e2, he2, rfl⟩ := hx
      exact le_of_lt (entryNotional_pos (List.all_eq_true.mp h.2 e2 he2))
    unfold totalEntryNotionalUsd at h2 ⊢
    simp only [List.map_cons, List.sum_cons]
    linarith

theorem totalClosedCoin_nonneg {l : List TradeClose} (h : l.all closeWF = true) :
    0 ≤ totalClosedCoin l := by
  unfold totalClosedCoin
  apply List.sum_nonneg
  intro x hx
  simp only [List.mem_map] at hx
  obtain ⟨c, hc, rfl⟩ := hx
  have := List.all_eq_true.mp h c hc
  simpa [closeWF] using this

/-! ### Projection lemmas for `computeTradeAggregates` -/

theorem agg_totalEntryCoin (t : Trade) :
    (computeTradeAggregates t).totalEntryCoin = totalEntryCoin t.entries := rfl

theorem agg_totalInitialMarginUsd (t : Trade) :
    (computeTradeAggregates t).totalInitialMarginUsd = totalInitialMarginUsd t.entries := rfl

theorem agg_openCoin (t : Trade) :
    (computeTradeAggregates t).openCoin =
      max (totalEntryCoin t.entries - totalClosedCoin t.closes) 0 := rfl

theorem agg_avgEntryPrice (t : Trade) :
    (computeTradeAggregates t).avgEntryPrice =
      if totalEntryCoin t.entries > 0 then
        some (totalEntryNotionalUsd t.entries / totalEntryCoin t.entries)
      else none := rfl

theorem agg_realizedPnlUsd (t : Trade) :
    (computeTradeAggregates t).realizedPnlUsd = realizedPnlTotal t.closes := rfl

/-! ### Shape lemmas for the operations -/

theorem createActiveTrade_ok_shape {r : CreateActiveRequest} {now : ℕ} {t : Trade}
    (h : createActiveTrade r now = Except.ok t) :
    t.status = Status.active ∧ t.closes = [] ∧
    ∃ e, t.entries = [e] ∧ entryWF e = true := by
  unfold createActiveTrade at h
  split at h
  case isFalse => exact absurd h (by simp)
  case isTrue hv =>
    simp only [Except.ok.injEq] at h
    subst h
    refine ⟨rfl, rfl, ⟨_, rfl, ?_⟩⟩
    simp only [createActiveValid, Bool.and_eq_true, decide_eq_true_eq] at hv
    simp only [entryWF, Bool.and_eq_true, decide_eq_true_eq]
    exact ⟨⟨hv.1.1.1.1.1.2, hv.1.1.1.1.2⟩, hv.1.1.1.2⟩

theorem createClosedTrade_ok_shape {r : CreateClosedRequest} {now : ℕ} {t : Trade}
    (h : createClosedTrade r now = Except.ok t) :
    t.status = Status.closed ∧
    ∃ e c, t.entries = [e] ∧ t.closes = [c] ∧ entryWF e = true ∧
      c.closeCoinAmount = totalEntryCoin [e] := by
  unfold createClosedTrade at h
  split at h
  case isFalse => exact absurd h (by simp)
  case isTrue hv =>
    simp only [Except.ok.injEq] at h
    subst h
    refine ⟨rfl, ⟨_, _, rfl, rfl, ?_, ?_⟩⟩
    · simp only [createClosedValid, Bool.and_eq_true, decide_eq_true_eq] at hv
      simp only [entryWF, Bool.and_eq_true, decide_eq_true_eq]
      exact ⟨⟨hv.1.1.1.1.1.1.2, hv.1.1.1.1.1.2⟩, hv.1.1.1.1.2⟩
    · rfl

theorem addSizeTrade_ok_shape {t : Trade} {r : AddSizeRequest} {now : ℕ} {t2 : Trade}
    (h : addSizeTrade t r now = Except.ok t2) :
    t.status = Status.active ∧
    ∃ e, entryWF e = true ∧ t2 = { t with entries := t.entries ++ [e] } := by
  unfold addSizeTrade at h
  split at h
  case isFalse => exact absurd h (by simp)
  case isTrue hv =>
    split at h
    case isFalse => exact absurd h (by simp)
    case isTrue hs =>
      simp only [Except.ok.injEq] at h
      refine ⟨hs, ⟨_, ?_, h.symm⟩⟩
      simp only [addSizeValid, Bool.and_eq_true, decide_eq_true_eq] at hv
      simp only [entryWF, Bool.and_eq_true, decide_eq_true_eq]
      exact ⟨⟨hv.1.1, hv.1.2⟩, hv.2⟩

theorem leverageValueOf_pos (dl : Option ℚ) : 0 < leverageValueOf dl := by
  unfold leverageValueOf
  cases dl with
  | none => norm_num
  | some l =>
    by_cases h : 1 < l
    · simp only [if_pos h]; linarith
    · simp only [if_neg h]; norm_num

theorem mapPosition_entryWF {pos : AsterDexPosition} {now : ℕ} {p : PositionTradePayload}
    (h : mapPosition pos now = some p) : entryWF p.entry = true := by
  unfold mapPosition at h
  split at h
  · exact Option.noConfusion h
  case h_2 positionId =>
    split at h
    · exact Option.noConfusion h
    split at h
    · exact Option.noConfusion h
    case h_2 size =>
      split at h
      · exact Option.noConfusion h
      split at h
      · exact Option.noConfusion h
      case h_2 entryPrice =>
        split at h
        · exact Option.noConfusion h
        case isFalse hp =>
          push_neg at hp
          split at h
          · exact Option.noConfusion h
          split at h
          · exact Option.noConfusion h
          split at h
          · split at h
            · exact Option.noConfusion h
            · rename_i hi
              push_neg at hi
              simp only [Option.some.injEq] at h
              subst h
              simp only [buildPayload, entryWF, Bool.and_eq_true, decide_eq_true_eq]
              refine ⟨⟨hp, hi⟩, ?_⟩
              simp only [Option.all_some, decide_eq_true_eq]
              split
              · exact leverageValueOf_pos _
              · norm_num
          · split at h
            · exact Option.noConfusion h
            · rename_i hi
              push_neg at hi
              simp only [Option.some.injEq] at h
              subst h
              simp only [buildPayload, entryWF, Bool.and_eq_true, decide_eq_true_eq]
              refine ⟨⟨hp, hi⟩, ?_⟩
              simp only [Option.all_some, decide_eq_true_eq]
              split
              · exact leverageValueOf_pos _
              · norm_num

theorem newTradeFromPayload_shape (p : PositionTradePayload) (syncedAt : ℕ) :
    (newTradeFromPayload p syncedAt).status = Status.active ∧
    (newTradeFromPayload p syncedAt).entries = [p.entry] ∧
    (newTradeFromPayload p syncedAt).closes = [] :=
  ⟨rfl, rfl, rfl⟩

theorem overwriteFromPayload_shape (t : Trade) (p : PositionTradePayload) (syncedAt : ℕ) :
    (overwriteFromPayload t p syncedAt).status = Status.active ∧
    (overwriteFromPayload t p syncedAt).entries = [p.entry] ∧
    (overwriteFromPayload t p syncedAt).closes = [] :=
  ⟨rfl, rfl, rfl⟩

set_option maxHeartbeats 2000000 in
/-- Success analysis of the sell handler: the request was valid, the trade was
active with open coin, the implied amount was positive, and the outcome
appends exactly one close whose coin amount is the clamped request. -/
theorem sellTrade_ok_shape {t : Trade} {r : SellRequest} {now : ℕ} {t2 : Trade}
    (h : sellTrade t r now = Except.ok t2) :
    sellRequestValid r = true ∧ t.status = Status.active ∧
    0 < (computeTradeAggregates t).totalEntryCoin ∧
    0 < (computeTradeAggregates t).openCoin ∧
    0 < impliedCloseCoin r (computeTradeAggregates t).openCoin ∧
    ∃ c : TradeClose,
      t2 = { t with
        closes := t.closes ++ [c]
        status := if (computeTradeAggregates t).openCoin -
            (if impliedCloseCoin r (computeTradeAggregates t).openCoin >
                (computeTradeAggregates t).openCoin
             then (computeTradeAggregates t).openCoin
             else impliedCloseCoin r (computeTradeAggregates t).openCoin) ≤ eps
          then Status.closed else t.status } ∧
      c.closeCoinAmount =
        (if impliedCloseCoin r (computeTradeAggregates t).openCoin >
            (computeTradeAggregates t).openCoin
         then (computeTradeAggregates t).openCoin
         else impliedCloseCoin r (computeTradeAggregates t).openCoin) := by
  simp only [sellTrade] at h
  split at h
  · exact Except.noConfusion h
  case isFalse hv =>
    rw [not_not] at hv
    split at h
    · exact Except.noConfusion h
    case isFalse hs =>
      rw [not_not] at hs
      split at h
      · exact Except.noConfusion h
      case isFalse hg =>
        push_neg at hg
        obtain ⟨_, htec, hoc⟩ := hg
        split at h
        · exact Except.noConfusion h
        case isFalse hcc =>
          rw [not_not] at hcc
          simp only [Except.ok.injEq] at h
          exact ⟨hv, hs, htec, hoc, hcc, ⟨_, h.symm, rfl⟩⟩

theorem Option.getD_pos {o : Option ℚ} {d : ℚ}
    (ho : o.all (fun x => decide (0 < x)) = true) (hd : 0 < d) : 0 < o.getD d := by
  cases o with
  | none => simpa using hd
  | some x => simpa using ho

/-- Success analysis of the PATCH handler: the status is never changed, and
either the entry/close lists are untouched (comment-style edit) or the
single-leg closed trade is rewritten with one entry and one close whose
coin amount is the recomputed `totalEntryCoin`. -/
theorem editTrade_ok_shape {t : Trade} {r : EditRequest} {now : ℕ} {t2 : Trade}
    (h : editTrade t r now = Except.ok t2) :
    t2.status = t.status ∧
    ((t2.entries = t.entries ∧ t2.closes = t.closes) ∨
     ∃ e2 c2, t2.entries = [e2] ∧ t2.closes = [c2] ∧
       c2.closeCoinAmount = totalEntryCoin [e2] ∧ 0 < totalEntryCoin [e2] ∧
       (t.entries.all entryWF = true → entryWF e2 = true)) := by
  simp only [editTrade] at h
  split at h
  · exact Except.noConfusion h
  case isFalse hv =>
    rw [not_not] at hv
    split at h
    · exact Except.noConfusion h
    case isFalse hcf =>
      split at h
      case isFalse =>
        simp only [Except.ok.injEq] at h
        subst h
        exact ⟨rfl, Or.inl ⟨rfl, rfl⟩⟩
      case isTrue hcp =>
        split at h
        case h_2 => exact Except.noConfusion h
        case h_1 entry closeRecord he hc =>
          split at h
          · exact Except.noConfusion h
          case isFalse hep =>
            push_neg at hep
            split at h
            · exact Except.noConfusion h
            case isFalse htec =>
              push_neg at htec
              simp only [Except.ok.injEq] at h
              subst h
              refine ⟨rfl, Or.inr ⟨_, _, rfl, rfl, rfl, htec, ?_⟩⟩
              intro hwf
              have hewf : entryWF entry = true := by
                have := List.all_eq_true.mp hwf entry
                apply this
                rw [he]
                exact List.mem_singleton.mpr rfl
              simp only [entryWF, Bool.and_eq_true, decide_eq_true_eq] at hewf ⊢
              obtain ⟨⟨hp, ha⟩, hl⟩ := hewf
              simp only [editRequestValid, Bool.and_eq_true] at hv
              refine ⟨⟨?_, ?_⟩, ?_⟩
              · exact Option.getD_pos hv.1.1.1.2 hp
              · exact Option.getD_pos hv.1.1.2 ha
              · cases hrl : r.leverage with
                | none => simpa using hl
                | some o =>
                  have := hv.1.2
                  rw [hrl] at this
                  simpa using this


/-! ### The ledger invariant over reachable states -/

theorem totalClosedCoin_nil : totalClosedCoin [] = 0 := rfl

theorem totalEntryCoin_singleton (e : TradeEntry) : totalEntryCoin [e] = entryCoin e := by
  simp [totalEntryCoin]

theorem totalClosedCoin_singleton (c : TradeClose) :
    totalClosedCoin [c] = c.closeCoinAmount := by
  simp [totalClosedCoin]

/-- Every reachable position is structurally well-formed and its closed coin
sum is bounded by its total entry coin (exactly, in rational arithmetic). -/
theorem reach_invariant {t : Trade} (h : Reach t) :
    tradeWF t = true ∧ totalClosedCoin t.closes ≤ totalEntryCoin t.entries := by
  induction h with
  | createActive r now t h =>
    obtain ⟨_, hc, e, he, hwf⟩ := createActiveTrade_ok_shape h
    refine ⟨?_, ?_⟩
    · simp [tradeWF, he, hc, hwf]
    · rw [he, hc, totalClosedCoin_nil, totalEntryCoin_singleton]
      exact le_of_lt (entryCoin_pos hwf)
  | createClosed r now t h =>
    obtain ⟨_, e, c, he, hc, hwf, hcc⟩ := createClosedTrade_ok_shape h
    have hpos : 0 < totalEntryCoin [e] := by
      rw [totalEntryCoin_singleton]; exact entryCoin_pos hwf
    refine ⟨?_, ?_⟩
    · have hclose : closeWF c = true := by
        simp only [closeWF, decide_eq_true_eq]
        rw [hcc]; exact le_of_lt hpos
      simp [tradeWF, he, hc, hwf, hclose]
    · rw [he, hc, totalClosedCoin_singleton, hcc]
  | syncCreate pos now p h =>
    have hwf : entryWF p.entry = true := mapPosition_entryWF h
    refine ⟨?_, ?_⟩
    · simp [tradeWF, newTradeFromPayload, hwf]
    · show totalClosedCoin [] ≤ totalEntryCoin [p.entry]
      rw [totalClosedCoin_nil, totalEntryCoin_singleton]
      exact le_of_lt (entryCoin_pos hwf)
  | addSizeStep t r now t2 ht h ih =>
    obtain ⟨_, e, hwf, ht2⟩ := addSizeTrade_ok_shape h
    obtain ⟨ihwf, ihsum⟩ := ih
    subst ht2
    simp only [tradeWF, Bool.and_eq_true] at ihwf
    refine ⟨?_, ?_⟩
    · simp only [tradeWF, Bool.and_eq_true]
      refine ⟨⟨?_, ?_⟩, ihwf.2⟩
      · simp
      · rw [List.all_append]
        simp [ihwf.1.2, hwf]
    · show totalClosedCoin t.closes ≤ totalEntryCoin (t.entries ++ [e])
      rw [totalEntryCoin_append]
      have := entryCoin_pos hwf
      linarith
  | sellStep t r now t2 ht h ih =>
    obtain ⟨_, _, _, hoc, hicc, c, ht2, hcca⟩ := sellTrade_ok_shape h
    obtain ⟨ihwf, ihsum⟩ := ih
    subst ht2
    simp only [tradeWF, Bool.and_eq_true] at ihwf
    have hocval : (computeTradeAggregates t).openCoin =
        max (totalEntryCoin t.entries - totalClosedCoin t.closes) 0 := agg_openCoin t
    have hclamp_le : c.closeCoinAmount ≤ (computeTradeAggregates t).openCoin := by
      rw [hcca]
      split
      · exact le_refl _
      · next hgt => push_neg at hgt; exact hgt
    have hclamp_pos : 0 < c.closeCoinAmount := by
      rw [hcca]
      split
      · exact hoc
      · exact hicc
    refine ⟨?_, ?_⟩
    · simp only [tradeWF, Bool.and_eq_true]
      refine ⟨⟨?_, ?_⟩, ?_⟩
      · simpa using ihwf.1.1
      · simpa using ihwf.1.2
      · show (t.closes ++ [c]).all closeWF = true
        rw [List.all_append]
        simp only [Bool.and_eq_true]
        refine ⟨ihwf.2, ?_⟩
        simp only [List.all_cons, List.all_nil, Bool.and_true, closeWF, decide_eq_true_eq]
        exact le_of_lt hclamp_pos
    · show totalClosedCoin (t.closes ++ [c]) ≤ totalEntryCoin t.entries
      rw [totalClosedCoin_append]
      have hmax : max (totalEntryCoin t.entries - totalClosedCoin t.closes) 0 =
          totalEntryCoin t.entries - totalClosedCoin t.closes :=
        max_eq_left (by linarith)
      rw [hocval, hmax] at hclamp_le
      linarith
  | editStep t r now t2 ht h ih =>
    obtain ⟨hst, hcase⟩ := editTrade_ok_shape h
    obtain ⟨ihwf, ihsum⟩ := ih
    simp only [tradeWF, Bool.and_eq_true] at ihwf
    cases hcase with
    | inl hsame =>
      obtain ⟨he, hc⟩ := hsame
      refine ⟨?_, ?_⟩
      · simp only [tradeWF, Bool.and_eq_true, he, hc]
        exact ihwf
      · rw [he, hc]; exact ihsum
    | inr hleg =>
      obtain ⟨e2, c2, he2, hc2, hcc, hpos, hwfimp⟩ := hleg
      refine ⟨?_, ?_⟩
      · have hwf2 : entryWF e2 = true := hwfimp ihwf.1.2
        have hclose : closeWF c2 = true := by
          simp only [closeWF, decide_eq_true_eq]
          rw [hcc]; exact le_of_lt hpos
        simp [tradeWF, he2, hc2, hwf2, hclose]
      · rw [he2, hc2, totalClosedCoin_singleton, hcc]
  | syncUpdate t pos now p ht h hk ih =>
    have hwf : entryWF p.entry = true := mapPosition_entryWF h
    refine ⟨?_, ?_⟩
    · simp [tradeWF, overwriteFromPayload, hwf]
    · show totalClosedCoin [] ≤ totalEntryCoin [p.entry]
      rw [totalClosedCoin_nil, totalEntryCoin_singleton]
      exact le_of_lt (entryCoin_pos hwf)

/-! ### Claim theorems -/

/-- **C1.** For every reachable position state — under manual creation
(active or already-closed), add-size, sell, entry/exit edit and the
reconciliation upsert — the sum of the position's close coin-amounts never
exceeds its total entry coin-amount, up to the tolerance 1e-8. -/
theorem C1_close_sum_never_exceeds_entry_coin {t : Trade} (h : Reach t) :
    totalClosedCoin t.closes ≤ totalEntryCoin t.entries + eps :=
  le_trans (reach_invariant h).2 (le_add_of_nonneg_right (by norm_num [eps]))

def c1Request : CreateActiveRequest :=
  { coin := "BTC", side := Side.long, entryPrice := 100, amountInvestedUsd := 1000
    leverage := some 5, stopLossPrice := none, takeProfitPrice := none
    entryDate := none, comment := none }

def c1Trade : Trade :=
  { side := Side.long, status := Status.active, coin := "BTC", comment := none
    stopLossPrice := none, takeProfitPrice := none
    entries := [{ entryPrice := 100, amountInvestedUsd := 1000, leverage := some 5
                  entryDate := 0 }]
    closes := [], source := none, exchange := none, exchangeAccountId := none
    exchangePositionId := none, exchangeProductType := none, lastSyncedAt := none }

/-- Witness for C1 on a concrete reachable position. -/
theorem C1_witness :
    totalClosedCoin c1Trade.closes ≤ totalEntryCoin c1Trade.entries + eps :=
  C1_close_sum_never_exceeds_entry_coin
    (Reach.createActive c1Request 0 c1Trade (by rfl))

/-- **C8.** `totalEntryCoin` equals the sum of
`amountInvestedUsd * leverage / entryPrice` over the entries (leverage
defaulting to 1) and is invariant under permutation of the entry list. -/
theorem C8_totalEntryCoin_formula_and_perm (entries : List TradeEntry) :
    totalEntryCoin entries =
      (entries.map (fun e => e.amountInvestedUsd * e.leverage.getD 1 / e.entryPrice)).sum ∧
    ∀ entries2, entries.Perm entries2 → totalEntryCoin entries = totalEntryCoin entries2 := by
  constructor
  · rfl
  · intro entries2 hperm
    unfold totalEntryCoin
    exact (hperm.map entryCoin).sum_eq

def c8EntryA : TradeEntry :=
  { entryPrice := 100, amountInvestedUsd := 1000, leverage := some 5, entryDate := 0 }

def c8EntryB : TradeEntry :=
  { entryPrice := 50, amountInvestedUsd := 200, leverage := none, entryDate := 1 }

/-- Witness for C8 on a concrete two-entry list and its transposition. -/
theorem C8_witness :
    totalEntryCoin [c8EntryA, c8EntryB] =
      ([c8EntryA, c8EntryB].map
        (fun e => e.amountInvestedUsd * e.leverage.getD 1 / e.entryPrice)).sum ∧
    totalEntryCoin [c8EntryA, c8EntryB] = totalEntryCoin [c8EntryB, c8EntryA] :=
  ⟨(C8_totalEntryCoin_formula_and_perm [c8EntryA, c8EntryB]).1,
   (C8_totalEntryCoin_formula_and_perm [c8EntryA, c8EntryB]).2 [c8EntryB, c8EntryA]
     (List.Perm.swap c8EntryB c8EntryA [])⟩

/-- **C9.** For every side and every well-formed entries/closes input, the
computed `openCoin` is never negative and never exceeds `totalEntryCoin`. -/
theorem C9_openCoin_bounds (t : Trade) (hE : t.entries.all entryWF = true)
    (hC : t.closes.all closeWF = true) :
    0 ≤ (computeTradeAggregates t).openCoin ∧
    (computeTradeAggregates t).openCoin ≤ (computeTradeAggregates t).totalEntryCoin := by
  rw [agg_openCoin, agg_totalEntryCoin]
  constructor
  · exact le_max_right _ _
  · apply max_le
    · have := totalClosedCoin_nonneg hC
      linarith
    · exact totalEntryCoin_nonneg hE

def c9Trade : Trade :=
  { side := Side.short, status := Status.active, coin := "ETH", comment := none
    stopLossPrice := none, takeProfitPrice := none
    entries := [{ entryPrice := 10, amountInvestedUsd := 100, leverage := none
                  entryDate := 0 }]
    closes := [{ closePrice := 12, closeCoinAmount := 4, closeUsdAmount := 48
                 closeDate := 1, pnlUsd := -8, pnlPercent := -20 }]
    source := none, exchange := none, exchangeAccountId := none
    exchangePositionId := none, exchangeProductType := none, lastSyncedAt := none }

/-- Witness for C9 on a concrete position. -/
theorem C9_witness :
    0 ≤ (computeTradeAggregates c9Trade).openCoin ∧
    (computeTradeAggregates c9Trade).openCoin ≤
      (computeTradeAggregates c9Trade).totalEntryCoin :=
  C9_openCoin_bounds c9Trade (by decide) (by decide)

/-- **C4.** A successful sell appends one close; if the remaining open coin
`openCoin - closeCoinAmount` is at most 1e-8 the position's status becomes
closed, and if it exceeds 1e-8 the status stays active. -/
theorem C4_sell_eps_transition {t : Trade} {r : SellRequest} {now : ℕ} {t2 : Trade}
    (h : sellTrade t r now = Except.ok t2) :
    ∃ c : TradeClose, t2.closes = t.closes ++ [c] ∧
      ((computeTradeAggregates t).openCoin - c.closeCoinAmount ≤ eps →
        t2.status = Status.closed) ∧
      (eps < (computeTradeAggregates t).openCoin - c.closeCoinAmount →
        t2.status = Status.active) := by
  obtain ⟨_, hact, _, _, _, c, ht2, hcca⟩ := sellTrade_ok_shape h
  have hstat : t2.status =
      if (computeTradeAggregates t).openCoin -
          (if impliedCloseCoin r (computeTradeAggregates t).openCoin >
              (computeTradeAggregates t).openCoin
           then (computeTradeAggregates t).openCoin
           else impliedCloseCoin r (computeTradeAggregates t).openCoin) ≤ eps
      then Status.closed else t.status := by rw [ht2]
  rw [← hcca] at hstat
  refine ⟨c, by rw [ht2], ?_, ?_⟩
  · intro hle
    rw [hstat, if_pos hle]
  · intro hgt
    rw [hstat, if_neg (not_le.mpr hgt), hact]

def c4Trade : Trade :=
  { side := Side.long, status := Status.active, coin := "BTC", comment := none
    stopLossPrice := none, takeProfitPrice := none
    entries := [{ entryPrice := 100, amountInvestedUsd := 1000, leverage := some 5
                  entryDate := 0 }]
    closes := [], source := none, exchange := none, exchangeAccountId := none
    exchangePositionId := none, exchangeProductType := none, lastSyncedAt := none }

def c4Request : SellRequest :=
  { closePrice := 120, closeDate := some 1, amountCoin := some 50
    amountUsd := none, percentage := none }

def c4Result : Trade :=
  { c4Trade with
    status := Status.closed
    closes := [{ closePrice := 120, closeCoinAmount := 50, closeUsdAmount := 6000
                 closeDate := 1, pnlUsd := 1000, pnlPercent := 100 }] }

/-- Witness for C4: selling the full 50 coins closes the concrete position. -/
theorem C4_witness :
    ∃ c : TradeClose, c4Result.closes = c4Trade.closes ++ [c] ∧
      ((computeTradeAggregates c4Trade).openCoin - c.closeCoinAmount ≤ eps →
        c4Result.status = Status.closed) ∧
      (eps < (computeTradeAggregates c4Trade).openCoin - c.closeCoinAmount →
        c4Result.status = Status.active) :=
  C4_sell_eps_transition
    (show sellTrade c4Trade c4Request 1 = Except.ok c4Result by
      norm_num [sellTrade, sellRequestValid, impliedCloseCoin, computeTradeAggregates,
        totalEntryCoin, totalClosedCoin, totalInitialMarginUsd, totalEntryNotionalUsd,
        entryCoin, entryNotional, entryLeverage, realizedPnlTotal, pnlUsdFor,
        c4Trade, c4Request, c4Result, eps])

/-- **C2.** For an active well-formed position with positive open coin, a sell
whose implied coin amount exceeds `openCoin` succeeds, appends a close whose
`closeCoinAmount` is exactly `openCoin`, and never oversells: the close coin
sum stays at most `totalEntryCoin + 1e-8`. -/
theorem C2_oversell_clamps_to_openCoin (t : Trade) (r : SellRequest) (now : ℕ)
    (hwf : tradeWF t = true) (hact : t.status = Status.active)
    (hv : sellRequestValid r = true)
    (hoc : 0 < (computeTradeAggregates t).openCoin)
    (himp : impliedCloseCoin r (computeTradeAggregates t).openCoin >
      (computeTradeAggregates t).openCoin) :
    ∃ t2 c, sellTrade t r now = Except.ok t2 ∧
      t2.closes = t.closes ++ [c] ∧
      c.closeCoinAmount = (computeTradeAggregates t).openCoin ∧
      totalClosedCoin t2.closes ≤ totalEntryCoin t2.entries + eps := by
  simp only [tradeWF, Bool.and_eq_true] at hwf
  have hne : t.entries ≠ [] := by
    intro hnil
    have := hwf.1.1
    rw [hnil] at this
    simp at this
  have htec : 0 < totalEntryCoin t.entries := totalEntryCoin_pos hwf.1.2 hne
  have hten : 0 < totalEntryNotionalUsd t.entries := totalEntryNotionalUsd_pos hwf.1.2 hne
  have havg : (computeTradeAggregates t).avgEntryPrice =
      some (totalEntryNotionalUsd t.entries / totalEntryCoin t.entries) := by
    rw [agg_avgEntryPrice, if_pos htec]
  have havgpos : 0 < (computeTradeAggregates t).avgEntryPrice.getD 0 := by
    rw [havg]
    simpa using div_pos hten htec
  have hguard : ¬ ((computeTradeAggregates t).avgEntryPrice.getD 0 = 0 ∨
      (computeTradeAggregates t).totalEntryCoin ≤ 0 ∨
      (computeTradeAggregates t).openCoin ≤ 0) := by
    push_neg
    refine ⟨havgpos.ne', ?_, hoc⟩
    rw [agg_totalEntryCoin]
    exact htec
  have hicc : 0 < impliedCloseCoin r (computeTradeAggregates t).openCoin :=
    lt_trans hoc himp
  simp only [sellTrade]
  rw [if_neg (not_not_intro hv), if_neg (not_not_intro hact), if_neg hguard,
    if_neg (not_not_intro hicc), if_pos himp]
  refine ⟨_, _, rfl, rfl, rfl, ?_⟩
  show totalClosedCoin (t.closes ++
    [{ closePrice := r.closePrice
       closeCoinAmount := (computeTradeAggregates t).openCoin
       closeUsdAmount := (computeTradeAggregates t).openCoin * r.closePrice
       closeDate := r.closeDate.getD now
       pnlUsd := pnlUsdFor t.side r.closePrice
         ((computeTradeAggregates t).avgEntryPrice.getD 0)
         (computeTradeAggregates t).openCoin
       pnlPercent := _ }]) ≤ totalEntryCoin t.entries + eps
  rw [totalClosedCoin_append]
  have hmaxpos : 0 < max (totalEntryCoin t.entries - totalClosedCoin t.closes) 0 := by
    rw [← agg_openCoin]
    exact hoc
  have hdiff : 0 < totalEntryCoin t.entries - totalClosedCoin t.closes := by
    by_contra hle
    push_neg at hle
    rw [max_eq_right hle] at hmaxpos
    exact lt_irrefl 0 hmaxpos
  have hopen : (computeTradeAggregates t).openCoin =
      totalEntryCoin t.entries - totalClosedCoin t.closes := by
    rw [agg_openCoin]
    exact max_eq_left (le_of_lt hdiff)
  show totalClosedCoin t.closes + (computeTradeAggregates t).openCoin ≤
    totalEntryCoin t.entries + eps
  rw [hopen]
  have heps : (0 : ℚ) < eps := by norm_num [eps]
  linarith

def c2Trade : Trade :=
  { side := Side.long, status := Status.active, coin := "BTC", comment := none
    stopLossPrice := none, takeProfitPrice := none
    entries := [{ entryPrice := 100, amountInvestedUsd := 1000, leverage := some 5
                  entryDate := 0 }]
    closes := [{ closePrice := 110, closeCoinAmount := 20, closeUsdAmount := 2200
                 closeDate := 1, pnlUsd := 200, pnlPercent := 50 }]
    source := none, exchange := none, exchangeAccountId := none
    exchangePositionId := none, exchangeProductType := none, lastSyncedAt := none }

def c2Request : SellRequest :=
  { closePrice := 100, closeDate := some 2, amountCoin := some 1000
    amountUsd := none, percentage := none }

/-- Witness for C2: requesting 1000 coins with only 30 open clamps to 30. -/
theorem C2_witness :
    ∃ t2 c, sellTrade c2Trade c2Request 2 = Except.ok t2 ∧
      t2.closes = c2Trade.closes ++ [c] ∧
      c.closeCoinAmount = (computeTradeAggregates c2Trade).openCoin ∧
      totalClosedCoin t2.closes ≤ totalEntryCoin t2.entries + eps :=
  C2_oversell_clamps_to_openCoin c2Trade c2Request 2 (by decide) rfl (by decide)
    (by norm_num [computeTradeAggregates, totalEntryCoin, totalClosedCoin,
      totalInitialMarginUsd, totalEntryNotionalUsd, entryCoin, entryNotional,
      entryLeverage, c2Trade])
    (by norm_num [impliedCloseCoin, computeTradeAggregates, totalEntryCoin,
      totalClosedCoin, totalInitialMarginUsd, totalEntryNotionalUsd, entryCoin,
      entryNotional, entryLeverage, c2Trade, c2Request])

/-! ### Reconciliation claims -/

/-- **C6.** `runSync` under the held single-flight guard returns immediately:
zero counters, `concurrent = true`, engine state (and stored trades)
untouched, and the result does not depend on the feed at all (no fetch). -/
theorem C6_single_flight_guard (e : SyncEngine) (feed : FeedResult) (now : ℕ)
    (h : e.syncing = true) :
    runSync e feed now =
      (e, { totalPositions := 0, created := 0, updated := 0, skipped := 0
            concurrent := true }) := by
  unfold runSync
  rw [if_pos h]

def c6Engine : SyncEngine := { syncing := true, db := [c1Trade] }

/-- Witness for C6 on a concrete busy engine (for both feed outcomes). -/
theorem C6_witness :
    runSync c6Engine (FeedResult.ok []) 5 =
      (c6Engine, { totalPositions := 0, created := 0, updated := 0, skipped := 0
                   concurrent := true }) ∧
    runSync c6Engine FeedResult.fetchError 5 =
      (c6Engine, { totalPositions := 0, created := 0, updated := 0, skipped := 0
                   concurrent := true }) :=
  ⟨C6_single_flight_guard c6Engine (FeedResult.ok []) 5 rfl,
   C6_single_flight_guard c6Engine FeedResult.fetchError 5 rfl⟩

/-- **C5.** A snapshot that fails the mapping rules only increments the
skipped counter (same stored trades, same created/updated counts as without
it), and a feed-fetch failure aborts the run before any upsert: the stored
trades are unchanged and the stats are zeroed. -/
theorem C5_per_item_skips_feed_aborts (db : List Trade) (now : ℕ)
    (p : AsterDexPosition) (rest : List AsterDexPosition)
    (hp : mapPosition p now = none) (e : SyncEngine) (he : e.syncing = false) :
    (syncLoop db now (p :: rest)).db = (syncLoop db now rest).db ∧
    (syncLoop db now (p :: rest)).created = (syncLoop db now rest).created ∧
    (syncLoop db now (p :: rest)).updated = (syncLoop db now rest).updated ∧
    (syncLoop db now (p :: rest)).skipped = (syncLoop db now rest).skipped + 1 ∧
    (runSync e FeedResult.fetchError now).1.db = e.db ∧
    (runSync e FeedResult.fetchError now).2 =
      { totalPositions := 0, created := 0, updated := 0, skipped := 0
        concurrent := false } := by
  refine ⟨?_, ?_, ?_, ?_, ?_, ?_⟩ <;>
    simp [syncLoop, runSync, hp, he]

def c5BadSnapshot : AsterDexPosition :=
  { id := some "BTCUSDT:BOTH", market := some "BTCUSDT", asset := some "BTCUSDT"
    size := some 0, entryPrice := some 100, leverage := none, notionalUsd := none
    collateralUsd := none, accountId := none, openedAt := none }

def c5Engine : SyncEngine := { syncing := false, db := [c1Trade] }

/-- Witness for C5: a zero-size snapshot is skipped without touching the
store, and a feed failure aborts with zeroed stats and an untouched store. -/
theorem C5_witness :
    (syncLoop [c1Trade] 3 [c5BadSnapshot]).db = (syncLoop [c1Trade] 3 []).db ∧
    (syncLoop [c1Trade] 3 [c5BadSnapshot]).created = (syncLoop [c1Trade] 3 []).created ∧
    (syncLoop [c1Trade] 3 [c5BadSnapshot]).updated = (syncLoop [c1Trade] 3 []).updated ∧
    (syncLoop [c1Trade] 3 [c5BadSnapshot]).skipped = (syncLoop [c1Trade] 3 []).skipped + 1 ∧
    (runSync c5Engine FeedResult.fetchError 3).1.db = c5Engine.db ∧
    (runSync c5Engine FeedResult.fetchError 3).2 =
      { totalPositions := 0, created := 0, updated := 0, skipped := 0
        concurrent := false } :=
  C5_per_item_skips_feed_aborts [c1Trade] 3 c5BadSnapshot [] (by rfl) c5Engine rfl

/-- Number of stored trades carrying the reconciliation key
`(exchange = 'asterdex', exchangePositionId)`, per user scope. -/
def countMatching (db : List Trade) (pid : String) : ℕ :=
  (db.filter (fun t => tradeMatchesKey t pid)).length

theorem tradeMatchesKey_new (p : PositionTradePayload) (n : ℕ) :
    tradeMatchesKey (newTradeFromPayload p n) p.positionId = true := by
  simp [tradeMatchesKey, newTradeFromPayload]

theorem tradeMatchesKey_overwrite (t : Trade) (p : PositionTradePayload) (n : ℕ) :
    tradeMatchesKey (overwriteFromPayload t p n) p.positionId = true := by
  simp [tradeMatchesKey, overwriteFromPayload]

theorem upsert_of_no_match {db : List Trade} {p : PositionTradePayload} {n : ℕ}
    (h : ∀ t ∈ db, tradeMatchesKey t p.positionId = false) :
    upsertTrade db p n = (db ++ [newTradeFromPayload p n], UpsertResult.created) := by
  induction db with
  | nil => rfl
  | cons t rest ih =>
    unfold upsertTrade
    rw [h t (List.mem_cons_self t rest), ih (fun t2 ht2 => h t2 (List.mem_cons_of_mem _ ht2))]
    simp

theorem upsert_of_match_at_end {db : List Trade} {p : PositionTradePayload} {n : ℕ}
    (x : Trade) (hx : tradeMatchesKey x p.positionId = true)
    (h : ∀ t ∈ db, tradeMatchesKey t p.positionId = false) :
    upsertTrade (db ++ [x]) p n =
      (db ++ [overwriteFromPayload x p n], UpsertResult.updated) := by
  induction db with
  | nil =>
    rw [List.nil_append]
    simp [upsertTrade, hx]
  | cons t rest ih =>
    have ht := h t (List.mem_cons_self t rest)
    have ih2 := ih (fun t2 ht2 => h t2 (List.mem_cons_of_mem _ ht2))
    rw [List.cons_append]
    simp [upsertTrade, ht, ih2]

theorem countMatching_append (db1 db2 : List Trade) (pid : String) :
    countMatching (db1 ++ db2) pid = countMatching db1 pid + countMatching db2 pid := by
  simp [countMatching, List.filter_append]

theorem countMatching_eq_zero {db : List Trade} {pid : String}
    (h : countMatching db pid = 0) :
    ∀ t ∈ db, tradeMatchesKey t pid = false := by
  intro t ht
  by_contra hne
  rw [Bool.not_eq_false] at hne
  have : t ∈ db.filter (fun t => tradeMatchesKey t pid) :=
    List.mem_filter.mpr ⟨ht, hne⟩
  have : db.filter (fun t => tradeMatchesKey t pid) ≠ [] := by
    intro hnil
    rw [hnil] at this
    exact List.not_mem_nil t this
  exact this (List.length_eq_zero.mp h)

/-- **C7.** Reconciliation upsert is idempotent per external id: starting with
no stored trade under the key, the first upsert reports `created`, the second
(unchanged payload) reports `updated`, and after each run exactly one stored
trade carries the key `(userId, exchange, externalPositionId)`. -/
theorem C7_upsert_idempotent (db : List Trade) (p : PositionTradePayload) (n1 n2 : ℕ)
    (h : countMatching db p.positionId = 0) :
    (upsertTrade db p n1).2 = UpsertResult.created ∧
    countMatching (upsertTrade db p n1).1 p.positionId = 1 ∧
    (upsertTrade (upsertTrade db p n1).1 p n2).2 = UpsertResult.updated ∧
    countMatching (upsertTrade (upsertTrade db p n1).1 p n2).1 p.positionId = 1 := by
  have hnone := countMatching_eq_zero h
  have h1 := upsert_of_no_match (n := n1) hnone
  have h2 := upsert_of_match_at_end (n := n2) (newTradeFromPayload p n1)
    (tradeMatchesKey_new p n1) hnone
  rw [h1]
  refine ⟨rfl, ?_, ?_, ?_⟩
  · show countMatching (db ++ [newTradeFromPayload p n1]) p.positionId = 1
    rw [countMatching_append, h]
    simp [countMatching, tradeMatchesKey_new]
  · show (upsertTrade (db ++ [newTradeFromPayload p n1]) p n2).2 = UpsertResult.updated
    rw [h2]
  · show countMatching
      (upsertTrade (db ++ [newTradeFromPayload p n1]) p n2).1 p.positionId = 1
    rw [h2, countMatching_append, h]
    simp [countMatching, tradeMatchesKey_overwrite]

def c7Payload : PositionTradePayload :=
  { positionId := "ETHUSDT:BOTH", coin := "ETHUSDT", side := Side.long
    entry := { entryPrice := 2000, amountInvestedUsd := 500, leverage := some 3
               entryDate := 0 }
    exchangeProductType := "perpetual", accountId := none }

/-- Witness for C7 on an initially empty store. -/
theorem C7_witness :
    (upsertTrade [] c7Payload 1).2 = UpsertResult.created ∧
    countMatching (upsertTrade [] c7Payload 1).1 c7Payload.positionId = 1 ∧
    (upsertTrade (upsertTrade [] c7Payload 1).1 c7Payload 2).2 = UpsertResult.updated ∧
    countMatching (upsertTrade (upsertTrade [] c7Payload 1).1 c7Payload 2).1
      c7Payload.positionId = 1 :=
  C7_upsert_idempotent [] c7Payload 1 2 rfl

/-! ### C3: status transitions out of `closed` -/

def c3Position : AsterDexPosition :=
  { id := some "BTCUSDT:BOTH", market := some "BTCUSDT", asset := some "BTC"
    size := some 10, entryPrice := some 100, leverage := none
    notionalUsd := some 1000, collateralUsd := none, accountId := none
    openedAt := some 0 }

def c3Payload : PositionTradePayload :=
  { positionId := "BTCUSDT:BOTH", coin := "BTC", side := Side.long
    entry := { entryPrice := 100, amountInvestedUsd := 1000, leverage := some 1
               entryDate := 0 }
    exchangeProductType := "spot", accountId := none }

def c3Active : Trade := newTradeFromPayload c3Payload 0

def c3Sell : SellRequest :=
  { closePrice := 100, closeDate := some 1, amountCoin := some 10
    amountUsd := none, percentage := none }

/-- The reachable closed position: the sync-created trade fully sold. -/
def c3Closed : Trade :=
  { side := Side.long, status := Status.closed, coin := "BTC", comment := none
    stopLossPrice := none, takeProfitPrice := none
    entries := [{ entryPrice := 100, amountInvestedUsd := 1000, leverage := some 1
                  entryDate := 0 }]
    closes := [{ closePrice := 100, closeCoinAmount := 10, closeUsdAmount := 1000
                 closeDate := 1, pnlUsd := 0, pnlPercent := 0 }]
    source := some "asterdex", exchange := some "asterdex"
    exchangeAccountId := none, exchangePositionId := some "BTCUSDT:BOTH"
    exchangeProductType := some "spot", lastSyncedAt := some 0 }

/-- **C3 counterexample.** A reachable position that is closed (a reconciled
position the user fully sold) is flipped back to active by the next
reconciliation upsert of the same external id: `upsertTrade` reports
`updated` and stores it with `status = active`, refuting "never
closed→active" for the upsert. -/
theorem C3_counterexample :
    Reach c3Closed ∧ c3Closed.status = Status.closed ∧
    tradeMatchesKey c3Closed c3Payload.positionId = true ∧
    (upsertTrade [c3Closed] c3Payload 2).2 = UpsertResult.updated ∧
    ((upsertTrade [c3Closed] c3Payload 2).1.map Trade.status) = [Status.active] := by
  refine ⟨?_, rfl, ?_, ?_, ?_⟩
  · refine Reach.sellStep c3Active c3Sell 1 c3Closed
      (Reach.syncCreate c3Position 0 c3Payload (by decide)) ?_
    norm_num [sellTrade, sellRequestValid, impliedCloseCoin, computeTradeAggregates,
      totalEntryCoin, totalClosedCoin, totalInitialMarginUsd, totalEntryNotionalUsd,
      entryCoin, entryNotional, entryLeverage, realizedPnlTotal, pnlUsdFor,
      c3Active, c3Closed, c3Payload, c3Sell, newTradeFromPayload, eps]
  · decide
  · decide
  · decide

/-- **C3 (amended).** Under the manual mutation operations a closed position
never transitions back to active: selling and adding size to a closed trade
always fail, and a successful edit preserves the closed status.  The
reconciliation upsert, by contrast, always sets the matched document's
status to active (see the counterexample). -/
theorem C3_manual_ops_never_unclose (t : Trade) (h : t.status = Status.closed) :
    (∀ r now t2, sellTrade t r now ≠ Except.ok t2) ∧
    (∀ r now t2, addSizeTrade t r now ≠ Except.ok t2) ∧
    (∀ r now t2, editTrade t r now = Except.ok t2 → t2.status = Status.closed) := by
  refine ⟨?_, ?_, ?_⟩
  · intro r now t2 hok
    have := (sellTrade_ok_shape hok).2.1
    rw [h] at this
    exact Status.noConfusion this
  · intro r now t2 hok
    have := (addSizeTrade_ok_shape hok).1
    rw [h] at this
    exact Status.noConfusion this
  · intro r now t2 hok
    rw [(editTrade_ok_shape hok).1, h]

/-- Witness for the amended C3 at a concrete closed position. -/
theorem C3_witness :
    (∀ r now t2, sellTrade c3Closed r now ≠ Except.ok t2) ∧
    (∀ r now t2, addSizeTrade c3Closed r now ≠ Except.ok t2) ∧
    (∀ r now t2, editTrade c3Closed r now = Except.ok t2 →
      t2.status = Status.closed) :=
  C3_manual_ops_never_unclose c3Closed rfl

/-! ### C10: rejected edits persist nothing -/

/-- **C10.** If an edit request supplies any entry/exit field and the handler
rejects it — for any reason — then nothing at all is persisted (the stored
trade is unchanged, including any comment/stop-loss/take-profit supplied in
the same request); in particular an entry/exit edit of an active position is
always rejected with `onlyClosedEditable`. -/
theorem C10_rejected_edit_persists_nothing (t : Trade) (r : EditRequest) (now : ℕ)
    (hf : closedFieldsProvided r = true) :
    (∀ e, editTrade t r now = Except.error e → editPersisted t r now = t) ∧
    (editRequestValid r = true → t.status = Status.active →
      editTrade t r now = Except.error RouteError.onlyClosedEditable) := by
  constructor
  · intro e he
    unfold editPersisted
    rw [he]
  · intro hv hact
    unfold editTrade
    rw [if_neg (not_not_intro hv), if_pos]
    exact ⟨hf, by rw [hact]; exact fun hh => Status.noConfusion hh⟩

def c10Trade : Trade :=
  { side := Side.long, status := Status.active, coin := "BTC", comment := none
    stopLossPrice := none, takeProfitPrice := none
    entries := [{ entryPrice := 100, amountInvestedUsd := 1000, leverage := some 5
                  entryDate := 0 }]
    closes := [], source := none, exchange := none, exchangeAccountId := none
    exchangePositionId := none, exchangeProductType := none, lastSyncedAt := none }

/-- A request that edits the entry price and simultaneously supplies a
comment and a stop loss. -/
def c10Request : EditRequest :=
  { comment := some "updated", stopLossPrice := some (some 90)
    takeProfitPrice := none, coin := none, side := none, entryPrice := some 50
    amountInvestedUsd := none, leverage := none, entryDate := none
    exitPrice := none, exitDate := none }

/-- Witness for C10: the active position is stored unchanged — the comment and
stop loss supplied alongside the rejected entry edit are not persisted. -/
theorem C10_witness :
    editTrade c10Trade c10Request 0 = Except.error RouteError.onlyClosedEditable ∧
    editPersisted c10Trade c10Request 0 = c10Trade := by
  have h := C10_rejected_edit_persists_nothing c10Trade c10Request 0 (by decide)
  have herr := h.2 (by decide) rfl
  exact ⟨herr, h.1 RouteError.onlyClosedEditable herr⟩

end TradingLog
